import Mathlib

/-!
Verification of the monday-map-dashboard repository.

The repository holds two single-file Streamlit variants:
  * `src/streamlit_app.py`            — embedded below in namespace `App1`
  * `src/streamlit_map_dashboard/app.py` — embedded below in namespace `App2`

Modelling conventions (shallow embedding):
  * Python floats are modelled as exact fractions: the structure `Q` holds an
    integer numerator and a (positive, not necessarily reduced) integer
    denominator, with exact rational arithmetic.  All numbers on the
    repository's data paths (coordinates, currency amounts) are short decimal
    literals, for which `float` arithmetic and string parsing agree with the
    exact semantics.
  * Python strings are Lean `String`s; character-level work happens on
    `String.data` (a `List Char`).
  * Python runtime values that flow through the dynamically-typed parts
    (parsed JSON, dictionary fields) are modelled by the inductive `PyVal`;
    Python `None` is `PyVal.pnone`, and JSON `null` parses to it.
  * `json.loads` applied to a raw column string is modelled by giving the
    embedded functions the parse result directly: `none` stands for an
    absent/falsy raw string or an unparsable one (both fall through to the
    same fallback in the source).
  * Python `float(s)` on strings is modelled by `parseFloatCore` after
    whitespace stripping.  It covers signed decimal notation with an
    optional fraction and exponent — the full grammar for every string the
    claims and the repository's data paths exercise.  (`inf`/`nan` spellings
    and digit underscores are not modelled; no claim involves them.)
  * `round(x, 5)` / pandas `.round(5)` are modelled by exact half-to-even
    rounding at the fifth decimal (`round5`).
-/

/-- `10 ^ k` as an integer. -/
def pow10 : Nat → Int
  | 0 => 1
  | k + 1 => 10 * pow10 k

/-- An exact fraction `num / den`.  Every constructor and operation in this
development keeps `den` positive; it is not reduced to lowest terms, so all
arithmetic is plain integer arithmetic. -/
structure Q where
  num : Int
  den : Int
  deriving DecidableEq, Repr

instance (n : Nat) : OfNat Q n := ⟨⟨(n : Int), 1⟩⟩

instance : Neg Q := ⟨fun a => ⟨-a.num, a.den⟩⟩

instance : OfScientific Q :=
  ⟨fun m b e => if b then ⟨(m : Int), pow10 e⟩ else ⟨(m : Int) * pow10 e, 1⟩⟩

instance : Add Q := ⟨fun a b => ⟨a.num * b.den + b.num * a.den, a.den * b.den⟩⟩

instance : Sub Q := ⟨fun a b => ⟨a.num * b.den - b.num * a.den, a.den * b.den⟩⟩

instance : Mul Q := ⟨fun a b => ⟨a.num * b.num, a.den * b.den⟩⟩

instance : LE Q := ⟨fun a b => a.num * b.den ≤ b.num * a.den⟩

instance : LT Q := ⟨fun a b => a.num * b.den < b.num * a.den⟩

instance (a b : Q) : Decidable (a ≤ b) :=
  inferInstanceAs (Decidable (a.num * b.den ≤ b.num * a.den))

instance (a b : Q) : Decidable (a < b) :=
  inferInstanceAs (Decidable (a.num * b.den < b.num * a.den))

/-- Absolute value on `Q`. -/
def Q.qabs (a : Q) : Q := ⟨(a.num.natAbs : Int), a.den⟩

/-- A fraction is well formed when its denominator is positive.  Every
operation above preserves this. -/
def Q.wf (a : Q) : Prop := 0 < a.den

/-- Round-half-to-even to an integer, Python's `round`/numpy's rounding rule
(idealised to exact rational arithmetic): with `n = ⌊x⌋` and remainder `r`,
compare `2r` with the denominator and send an exact half to the even
neighbour. -/
def roundHalfEven (x : Q) : Int :=
  let n := Int.fdiv x.num x.den
  let r := x.num - n * x.den
  if 2 * r < x.den then n
  else if x.den < 2 * r then n + 1
  else if n % 2 = 0 then n else n + 1

/-- `round(x, 5)`: round to five decimal places, half to even. -/
def round5 (x : Q) : Q := ⟨roundHalfEven ⟨x.num * 100000, x.den⟩, 100000⟩

/-- Numeric value of a digit character. -/
def digitVal (c : Char) : Nat := c.toNat - '0'.toNat

/-- Value of a list of decimal digit characters. -/
def digitsToNat (l : List Char) : Nat := l.foldl (fun acc c => 10 * acc + digitVal c) 0

/-- Python `str.strip()`: drop whitespace from both ends. -/
def stripChars (l : List Char) : List Char :=
  ((l.dropWhile Char.isWhitespace).reverse.dropWhile Char.isWhitespace).reverse

/-- Split at the FIRST comma: `breakAtComma l = some (a, b)` when
`l = a ++ ',' :: b` with `a` comma-free; `none` when `l` has no comma.
This is Python's `l.split(",", 1)` (which, guarded by `"," in l`, always
yields exactly two parts). -/
def breakAtComma : List Char → Option (List Char × List Char)
  | [] => none
  | c :: cs =>
    if c = ',' then some ([], cs)
    else (breakAtComma cs).map (fun p => (c :: p.1, p.2))

/-- Python `l.split(",")`: split at EVERY comma. -/
def splitCommas : List Char → List (List Char)
  | [] => [[]]
  | c :: cs =>
    let r := splitCommas cs
    if c = ',' then [] :: r
    else
      match r with
      | h :: t => (c :: h) :: t
      | [] => [[c]]

/-- First maximal run of characters satisfying `p` (the leftmost match of the
regex `[p]+`), or `none` when no character satisfies `p`. -/
def firstRun (p : Char → Bool) : List Char → Option (List Char)
  | [] => none
  | c :: cs => if p c then some (c :: cs.takeWhile p) else firstRun p cs

/-- Leading sign of a float literal: `-1` for `'-'`, else `1`; the sign
character is consumed. -/
def floatSign : List Char → Int × List Char
  | '-' :: r => (-1, r)
  | '+' :: r => (1, r)
  | s => (1, s)

/-- Parse the exponent part following `e`/`E` and apply it to `mant`
(multiply or divide by the indicated power of ten). -/
def applyExp (mant : Q) (l : List Char) : Option Q :=
  let p := floatSign l
  let ed := p.2.takeWhile Char.isDigit
  let rest := p.2.dropWhile Char.isDigit
  if ed.isEmpty || !rest.isEmpty then none
  else if p.1 < 0 then some ⟨mant.num, mant.den * pow10 (digitsToNat ed)⟩
  else some ⟨mant.num * pow10 (digitsToNat ed), mant.den⟩

/-- Unsigned part of a float literal: digits, optional `.` and fraction
digits (at least one digit overall), optional exponent.  The value of
`ip.fp` is the fraction `(ip·10^|fp| + fp) / 10^|fp|`. -/
def parseFloatMag (s1 : List Char) : Option Q :=
  let ip := s1.takeWhile Char.isDigit
  let s2 := s1.dropWhile Char.isDigit
  let fp :=
    match s2 with
    | '.' :: r => r.takeWhile Char.isDigit
    | _ => []
  let s3 :=
    match s2 with
    | '.' :: r => r.dropWhile Char.isDigit
    | _ => s2
  if ip.isEmpty && fp.isEmpty then none
  else
    let mant : Q :=
      ⟨(digitsToNat ip : Int) * pow10 fp.length + (digitsToNat fp : Int), pow10 fp.length⟩
    match s3 with
    | [] => some mant
    | 'e' :: r => applyExp mant r
    | 'E' :: r => applyExp mant r
    | _ => none

/-- Python `float` on an already-stripped character list: sign then
magnitude; `none` models a raised-and-caught `ValueError`. -/
def parseFloatCore (s : List Char) : Option Q :=
  let p := floatSign s
  (parseFloatMag p.2).map (fun m => ⟨p.1 * m.num, m.den⟩)

/-- Python `float(s)` on a string (strips surrounding whitespace itself). -/
def pyFloatString (s : String) : Option Q := parseFloatCore (stripChars s.data)

/-- Python runtime values flowing through the dynamically-typed data paths
(the possible results of `json.loads` plus raw strings).  `pnone` is Python
`None` (and the parse of JSON `null`). -/
inductive PyVal where
  | pnone
  | pbool (b : Bool)
  | num (q : Q)
  | str (s : String)
  | list (xs : List PyVal)
  | dict (kvs : List (String × PyVal))

/-- Python dict lookup on an association list; later bindings shadow earlier
ones, as in a dict built left to right. -/
def pyLookup {α : Type} (kvs : List (String × α)) (k : String) : Option α :=
  List.lookup k kvs.reverse

/-- Python `float(v)` on a runtime value: numbers pass through, booleans
become 0/1, strings are parsed; everything else raises (modelled `none`,
always caught at the call sites). -/
def pyFloat : PyVal → Option Q
  | PyVal.num q => some q
  | PyVal.pbool b => some (if b then 1 else 0)
  | PyVal.str s => pyFloatString s
  | _ => none

/-! ## First variant: `src/streamlit_app.py` -/

namespace App1

/-- One entry of an item's `column_values`: the `text` and (JSON-decoded)
`value` fields.  `value = none` models a falsy or unparsable raw value. -/
structure Cell where
  text : Option String
  value : Option PyVal

/-- One item of the board, with `column_values` keyed by column TITLE, as in
`vals = {cv["title"]: cv for cv in it["column_values"]}`. -/
structure Item where
  id : String
  name : String
  updated_at : Option String
  column_values : List (String × Cell)

/-- The environment-derived column titles (`ORDER_VALUE_TITLE`,
`LOCATION_TITLE`, `DETAIL_TITLES`). -/
structure Config where
  valueTitle : String
  locationTitle : String
  extraTitles : List String

/-- `vals.get(title, {}).get("text")`. -/
def cellText (it : Item) (title : String) : Option String :=
  (pyLookup it.column_values title).bind (fun c => c.text)

/-- `vals.get(title, {}).get("value")`. -/
def cellValue (it : Item) (title : String) : Option PyVal :=
  (pyLookup it.column_values title).bind (fun c => c.value)

/-- The `"lat,lng"` display-text branch of `parse_location` (lines 72–78):
when the text is truthy and holds a comma, split at the FIRST comma, strip
both parts and parse them as floats; any failure yields no coordinates. -/
def textParse (raw_text : Option String) : Option Q × Option Q × PyVal :=
  match raw_text with
  | some t =>
    if t ≠ "" ∧ t.data.contains ',' then
      match breakAtComma t.data with
      | some p =>
        match parseFloatCore (stripChars p.1), parseFloatCore (stripChars p.2) with
        | some la, some ln => (some la, some ln, PyVal.str "")
        | _, _ => (none, none, PyVal.str "")
      | none => (none, none, PyVal.str "")
    else (none, none, PyVal.str "")
  | none => (none, none, PyVal.str "")

/-- `parse_location(raw_value, raw_text)` (lines 63–78).  The raw value is
given as its JSON parse (see the header conventions); a structured dict with
`lat` and `lng` keys whose values convert to float wins, with
`j.get("address","")` as third component; any other shape, a missing key or
a failed conversion (the swallowed exception) falls through to the display
text. -/
def parse_location (raw_value : Option PyVal) (raw_text : Option String) :
    Option Q × Option Q × PyVal :=
  match raw_value with
  | some (PyVal.dict kvs) =>
    match pyLookup kvs "lat", pyLookup kvs "lng" with
    | some jla, some jln =>
      match pyFloat jla, pyFloat jln with
      | some la, some ln =>
        (some la, some ln, (pyLookup kvs "address").getD (PyVal.str ""))
      | _, _ => textParse raw_text
    | _, _ => textParse raw_text
  | _ => textParse raw_text

/-- Order-value parsing (lines 84–86):
`(text or "").replace("$","").replace(",","").strip()`, then
`float(val_txt) if val_txt else None`, exceptions giving `None`. -/
def orderValue (text : Option String) : Option Q :=
  let s1 := (text.getD "").data.filter (fun c => !(c == '$'))
  let s2 := s1.filter (fun c => !(c == ','))
  let val_txt := stripChars s2
  if val_txt.isEmpty then none else parseFloatCore val_txt

/-- A row of the built table (the dict appended at lines 94–100).  The three
mandatory fields stay `Option`-typed — the dict could in principle hold
`None` there; the Policy-A guard is what rules it out. -/
structure Row where
  id : String
  name : String
  updated_at : Option String
  order_value : Option Q
  lat : Option Q
  lng : Option Q
  address : PyVal
  extras : List (String × Option String)

/-- The order value extracted for one item. -/
def itemOrderValue (cfg : Config) (it : Item) : Option Q :=
  orderValue (cellText it cfg.valueTitle)

/-- The location triple extracted for one item. -/
def itemLoc (cfg : Config) (it : Item) : Option Q × Option Q × PyVal :=
  parse_location (cellValue it cfg.locationTitle) (cellText it cfg.locationTitle)

/-- One iteration of the row-building loop (lines 81–100): Policy A drops
the item (`continue`) when latitude, longitude or numeric order value is
missing. -/
def mkRow (cfg : Config) (it : Item) : Option Row :=
  match (itemLoc cfg it).1, (itemLoc cfg it).2.1, itemOrderValue cfg it with
  | some la, some ln, some v =>
    some { id := it.id, name := it.name, updated_at := it.updated_at,
           order_value := some v, lat := some la, lng := some ln,
           address := (itemLoc cfg it).2.2,
           extras := cfg.extraTitles.map (fun t => (t, cellText it t)) }
  | _, _, _ => none

/-- The built table: all items, in fetch order, through the Policy-A loop. -/
def buildRows (cfg : Config) (items : List Item) : List Row :=
  items.filterMap (mkRow cfg)

/-- The value part of the filter mask (line 117):
`(df["order_value"]>=vmin) & (df["order_value"]<=vmax)` (values are present
on every Policy-A row; an absent one would read as 0 here). -/
def maskValue (vmin vmax : Q) (r : Row) : Bool :=
  decide (vmin ≤ r.order_value.getD 0) && decide (r.order_value.getD 0 ≤ vmax)

/-- L1 distance of a row from the (already rounded) click point, on
coordinates rounded to 5 decimals (line 147). -/
def rowDist (latc lngc : Q) (r : Row) : Q :=
  Q.qabs (round5 (r.lat.getD 0) - latc) + Q.qabs (round5 (r.lng.getD 0) - lngc)

end App1

/-- `nsmallest(1, key)` with pandas' default first-occurrence tie keeping:
the first element attaining the minimal key, `none` on an empty list. -/
def nsmallest1 {α : Type} (f : α → Q) : List α → Option α
  | [] => none
  | r :: rs =>
    match nsmallest1 f rs with
    | none => some r
    | some b => if f b < f r then some b else some r

namespace App1

/-- The selection lookup (lines 143–148): round the click to 5 decimals and
take the filtered row minimising `rowDist`, first row winning ties. -/
def selectedRow (clickLat clickLng : Q) (rows : List Row) : Option Row :=
  nsmallest1 (rowDist (round5 clickLat) (round5 clickLng)) rows

end App1

/-! ## Second variant: `src/streamlit_map_dashboard/app.py` -/

namespace App2

/-- The `"lat, lng"` display-text branch of `parse_location` (lines 52–58):
split at EVERY comma, keep the first two parts
(`text_fallback.split(",")[:2]`), strip and float-parse each; any failure
returns the all-`None` triple. -/
def textParse (text_fallback : Option String) : PyVal × PyVal × PyVal :=
  match text_fallback with
  | some t =>
    if t ≠ "" ∧ t.data.contains ',' then
      match (splitCommas t.data).take 2 with
      | [a, b] =>
        match parseFloatCore (stripChars a), parseFloatCore (stripChars b) with
        | some la, some ln => (PyVal.num la, PyVal.num ln, PyVal.pnone)
        | _, _ => (PyVal.pnone, PyVal.pnone, PyVal.pnone)
      | _ => (PyVal.pnone, PyVal.pnone, PyVal.pnone)
    else (PyVal.pnone, PyVal.pnone, PyVal.pnone)
  | none => (PyVal.pnone, PyVal.pnone, PyVal.pnone)

/-- `parse_location(value_obj, text_fallback)` (lines 48–58): a dict value
with `lat` and `lng` keys returns those stored values UNCONVERTED
(`value_obj.get(...)`), plus `value_obj.get("address")` (Python `None` when
absent); otherwise the text fallback runs. -/
def parse_location (value_obj : PyVal) (text_fallback : Option String) :
    PyVal × PyVal × PyVal :=
  match value_obj with
  | PyVal.dict kvs =>
    match pyLookup kvs "lat", pyLookup kvs "lng" with
    | some vla, some vln => (vla, vln, (pyLookup kvs "address").getD PyVal.pnone)
    | _, _ => textParse text_fallback
  | _ => textParse text_fallback

/-- The numeric order value (lines 154–155):
`pd.to_numeric(ov.str.replace(",","").str.extract(r'([\d\.]+)')[0],
errors="coerce")` applied to one cell — remove every comma, take the first
maximal run of digits and dots, parse it, any failure (or a missing text)
coercing to absent. -/
def orderValueNum (text : Option String) : Option Q :=
  match text with
  | none => none
  | some s =>
    match firstRun (fun c => c.isDigit || c == '.') (s.data.filter (fun c => !(c == ','))) with
    | none => none
    | some run => parseFloatCore run

/-- One row of the `fetch_items` dataframe (lines 118–147 plus the derived
`order_value_num` and `date_parsed` columns; `date_parsed` as an abstract
day number). -/
structure Row where
  item_id : String
  name : String
  created_at : Option String
  updated_at : Option String
  lat : PyVal
  lng : PyVal
  address : PyVal
  order_value : Option String
  order_value_num : Option Q
  status : Option String
  date : Option String
  date_parsed : Option Int
  customer : Option String
  city : Option String
  state : Option String
  country : Option String

/-- The order-value stage of `apply_filters` (line 227):
`(out["order_value_num"].fillna(0) >= val_range[0]) &
 (out["order_value_num"].fillna(0) <= val_range[1])`. -/
def valueFilter (vmin vmax : Q) (rows : List Row) : List Row :=
  rows.filter (fun r =>
    decide (vmin ≤ r.order_value_num.getD 0) && decide (r.order_value_num.getD 0 ≤ vmax))

/-- The status stage of `apply_filters` (lines 228–230): only runs when some
status options were observed AND the selection is non-empty; then keeps the
rows whose status is in the selection (`isin`, false on a missing status). -/
def statusFilter (statusOptions statusSel : List String) (rows : List Row) : List Row :=
  if statusOptions.isEmpty then rows
  else if statusSel.isEmpty then rows
  else rows.filter (fun r =>
    match r.status with
    | some s => statusSel.contains s
    | none => false)

/-- The date stage of `apply_filters` (lines 231–233): runs when a
two-ended range is set and the surviving rows still hold a parsed date;
rows without one compare false. -/
def dateFilter (dateRange : Option (Int × Int)) (rows : List Row) : List Row :=
  match dateRange with
  | some se =>
    if rows.any (fun r => r.date_parsed.isSome) then
      rows.filter (fun r =>
        match r.date_parsed with
        | some d => decide (se.1 ≤ d) && decide (d ≤ se.2)
        | none => false)
    else rows
  | none => rows

/-- Python `str(x)` on an optional string cell (`astype(str)` renders a
missing entry as `"None"`). -/
def pyStrOfCell (o : Option String) : String := o.getD "None"

/-- Lowercase every character (`str.lower()`). -/
def lowerChars (l : List Char) : List Char := l.map Char.toLower

/-- Does `hay` start with `needle`? -/
def leadsWith : List Char → List Char → Bool
  | [], _ => true
  | _ :: _, [] => false
  | a :: as, b :: bs => a == b && leadsWith as bs

/-- Substring test `needle in hay` on character lists. -/
def hasSub (needle hay : List Char) : Bool :=
  match hay with
  | [] => needle.isEmpty
  | _ :: t => leadsWith needle hay || hasSub needle t

/-- The search stage of `apply_filters` (lines 234–240): when the query is
non-empty, keep rows whose customer, name or city contains it
(case-insensitively; the query arrives already lowercased). -/
def searchFilter (q : String) (rows : List Row) : List Row :=
  if q.isEmpty then rows
  else rows.filter (fun r =>
    hasSub q.data (lowerChars (pyStrOfCell r.customer).data) ||
    hasSub q.data (lowerChars (pyStrOfCell (some r.name)).data) ||
    hasSub q.data (lowerChars (pyStrOfCell r.city).data))

/-- `apply_filters` (lines 224–241): the four stages in source order. -/
def apply_filters (vmin vmax : Q) (statusOptions statusSel : List String)
    (dateRange : Option (Int × Int)) (q : String) (rows : List Row) : List Row :=
  searchFilter q (dateFilter dateRange (statusFilter statusOptions statusSel
    (valueFilter vmin vmax rows)))

end App2

/-! ## The pagination loop (lines 43–61 of the first variant; lines 73–150
of the second run the same protocol with a larger page size). -/

namespace Fetch

/-- One `items_page` response: its items and the next-page cursor. -/
structure Page (α : Type) where
  items : List α
  cursor : Option String

/-- Python's loop exit `if not cursor: break`: an absent or empty cursor is
final. -/
def cursorDone (c : Option String) : Bool :=
  match c with
  | none => true
  | some s => s == ""

/-- The fetch loop run against the finite sequence of pages the server
returns, one request per iteration: returns the accumulated items, the
number of page requests made, and whether the loop broke out (rather than
exhausting the modelled page sequence with a live cursor). -/
def fetchLoop {α : Type} : List (Page α) → List α × Nat × Bool
  | [] => ([], 0, false)
  | p :: ps =>
    if cursorDone p.cursor then (p.items, 1, true)
    else
      let r := fetchLoop ps
      (p.items ++ r.1, r.2.1 + 1, r.2.2)

end Fetch

/-! ## Spec-worded definitions, for refinement comparisons only -/

namespace SpecModel

/-- Monetary value extraction exactly as §4.3 of the spec words it: strip
`$` and `,`, trim whitespace, absent on empty remainder, else a float
parse whose failure is absent. -/
def specMonetary (text : Option String) : Option Q :=
  let cleaned := stripChars ((text.getD "").data.filter (fun c => !(c == '$' || c == ',')))
  if cleaned.isEmpty then none else parseFloatCore cleaned

end SpecModel

/-! ## Concrete sample data used by witnesses and counterexamples -/

/-- A structured location value: `{"lat":40.0,"lng":-73.0,"address":"HQ"}`. -/
def kvsStructured : List (String × PyVal) :=
  [("lat", PyVal.num 40), ("lng", PyVal.num (-73)), ("address", PyVal.str "HQ")]

/-- A malformed structured location value: its `lat` does not convert to
float. -/
def kvsBadLat : List (String × PyVal) :=
  [("lat", PyVal.str "abc"), ("lng", PyVal.num 1)]

/-- A second-variant row holding only a numeric order value `v`. -/
def valRow (v : Option Q) : App2.Row :=
  { item_id := "i", name := "n", created_at := none, updated_at := none,
    lat := PyVal.pnone, lng := PyVal.pnone, address := PyVal.pnone,
    order_value := none, order_value_num := v, status := none, date := none,
    date_parsed := none, customer := none, city := none, state := none,
    country := none }

/-- A second-variant row whose status is `"A"`. -/
def statusRowA : App2.Row :=
  { item_id := "s", name := "n", created_at := none, updated_at := none,
    lat := PyVal.pnone, lng := PyVal.pnone, address := PyVal.pnone,
    order_value := none, order_value_num := none, status := some "A",
    date := none, date_parsed := none, customer := none, city := none,
    state := none, country := none }

/-- A first-variant row pinned at `(40.12345, -73.0)` with name `a`. -/
def tieRowA : App1.Row :=
  { id := "1", name := "a", updated_at := none, order_value := some 10,
    lat := some (40.12345 : Q), lng := some (-73 : Q),
    address := PyVal.str "", extras := [] }

/-- A second first-variant row at the same coordinates, later in the
table. -/
def tieRowB : App1.Row :=
  { id := "2", name := "b", updated_at := none, order_value := some 20,
    lat := some (40.12345 : Q), lng := some (-73 : Q),
    address := PyVal.str "", extras := [] }

/-- Three pages: the first two return live cursors, the last a null one. -/
def pages3 : List (Fetch.Page Nat) :=
  [{ items := [1, 2], cursor := some "c1" },
   { items := [3], cursor := some "c2" },
   { items := [4, 5], cursor := none }]

/-! ## Order lemmas for `Q` -/

/-- Reflexivity of the fraction order. -/
theorem Q.qle_refl (a : Q) : a ≤ a := le_refl (a.num * a.den)

/-- A strict fraction inequality is non-strict. -/
theorem Q.qle_of_lt {a b : Q} (h : a < b) : a ≤ b := by
  have h2 : a.num * b.den < b.num * a.den := h
  exact le_of_lt h2

/-- Totality: not `b < a` means `a ≤ b`. -/
theorem Q.qle_of_not_lt {a b : Q} (h : ¬ b < a) : a ≤ b := by
  have h2 : ¬ b.num * a.den < a.num * b.den := h
  exact not_lt.mp h2

/-- Transitivity of the fraction order, for positive denominators. -/
theorem Q.qle_trans {a b c : Q} (ha : 0 < a.den) (hb : 0 < b.den) (hc : 0 < c.den)
    (h1 : a ≤ b) (h2 : b ≤ c) : a ≤ c := by
  have k1 : a.num * b.den * c.den ≤ b.num * a.den * c.den :=
    mul_le_mul_of_nonneg_right h1 hc.le
  have k2 : b.num * c.den * a.den ≤ c.num * b.den * a.den :=
    mul_le_mul_of_nonneg_right h2 ha.le
  have k3 : a.num * c.den * b.den ≤ c.num * a.den * b.den := by nlinarith
  exact le_of_mul_le_mul_right k3 hb

/-! ## Helper lemmas about the embedded operations -/

/-- `mkRow` yields `none` exactly when a mandatory field is missing. -/
theorem App1.mkRow_eq_none_iff (cfg : App1.Config) (it : App1.Item) :
    App1.mkRow cfg it = none ↔
      ((App1.itemLoc cfg it).1 = none ∨ (App1.itemLoc cfg it).2.1 = none ∨
        App1.itemOrderValue cfg it = none) := by
  rcases h1 : (App1.itemLoc cfg it).1 with _ | la <;>
    rcases h2 : (App1.itemLoc cfg it).2.1 with _ | ln <;>
      rcases h3 : App1.itemOrderValue cfg it with _ | v <;>
        simp [App1.mkRow, h1, h2, h3]

/-- A row produced by `mkRow` has all three mandatory fields present. -/
theorem App1.mkRow_some_mandatory {cfg : App1.Config} {it : App1.Item} {r : App1.Row}
    (h : App1.mkRow cfg it = some r) :
    r.lat.isSome ∧ r.lng.isSome ∧ r.order_value.isSome := by
  rcases h1 : (App1.itemLoc cfg it).1 with _ | la <;>
    rcases h2 : (App1.itemLoc cfg it).2.1 with _ | ln <;>
      rcases h3 : App1.itemOrderValue cfg it with _ | v <;>
        rw [App1.mkRow, h1, h2, h3] at h <;> cases h
  simp

/-! ## Claim theorems -/

/-- C4: Under Policy A (first variant), every row of the built table has a
present latitude, longitude and numeric order value, for every fetched
record sequence; and the row-building step drops an item exactly when one
of those three extractions is missing. -/
theorem claim_C4_policyA :
    (∀ (cfg : App1.Config) (items : List App1.Item),
      (App1.buildRows cfg items).all
        (fun r => r.lat.isSome && r.lng.isSome && r.order_value.isSome) = true) ∧
    (∀ (cfg : App1.Config) (it : App1.Item),
      App1.mkRow cfg it = none ↔
        ((App1.itemLoc cfg it).1 = none ∨ (App1.itemLoc cfg it).2.1 = none ∨
          App1.itemOrderValue cfg it = none)) := by
  constructor
  · intro cfg items
    rw [List.all_eq_true]
    intro r hr
    rw [App1.buildRows, List.mem_filterMap] at hr
    obtain ⟨it, -, hit⟩ := hr
    obtain ⟨h1, h2, h3⟩ := App1.mkRow_some_mandatory hit
    simp [h1, h2, h3]
  · exact App1.mkRow_eq_none_iff

/-- C5: the value-range predicate is inclusive at both ends and reads an
absent numeric value as 0 (second variant's `fillna(0)`), so a value-less
row passes exactly when 0 lies in `[vmin, vmax]`; on the sample table with
values 10, 50, 200 and range `[20, 100]` exactly the value-50 row survives;
and the first variant's mask is the same inclusive comparison. -/
theorem claim_C5_valueRange :
    (∀ (vmin vmax : Q) (rows : List App2.Row) (r : App2.Row),
      r ∈ App2.valueFilter vmin vmax rows ↔
        (r ∈ rows ∧ vmin ≤ r.order_value_num.getD 0 ∧ r.order_value_num.getD 0 ≤ vmax)) ∧
    (∀ (vmin vmax : Q) (rows : List App2.Row) (r : App2.Row),
      r.order_value_num = none →
        (r ∈ App2.valueFilter vmin vmax rows ↔ (r ∈ rows ∧ vmin ≤ 0 ∧ (0 : Q) ≤ vmax))) ∧
    App2.valueFilter 20 100 [valRow (some 10), valRow (some 50), valRow (some 200)] =
      [valRow (some 50)] ∧
    (∀ (vmin vmax : Q) (r : App1.Row),
      App1.maskValue vmin vmax r = true ↔
        (vmin ≤ r.order_value.getD 0 ∧ r.order_value.getD 0 ≤ vmax)) := by
  refine ⟨?_, ?_, rfl, ?_⟩
  · intro vmin vmax rows r
    simp [App2.valueFilter, List.mem_filter, and_assoc]
  · intro vmin vmax rows r h
    simp [App2.valueFilter, List.mem_filter, and_assoc, h]
  · intro vmin vmax r
    simp [App1.maskValue]

/-- C5 witness: a row with an absent numeric value, filtered with the range
`[-1, 1]` that contains 0, passes the value filter. -/
theorem claim_C5_witness :
    (valRow none).order_value_num = none ∧
    (valRow none ∈ App2.valueFilter (-1) 1 [valRow none] ↔
      (valRow none ∈ [valRow none] ∧ (-1 : Q) ≤ 0 ∧ (0 : Q) ≤ 1)) :=
  ⟨rfl, claim_C5_valueRange.2.1 (-1) 1 [valRow none] (valRow none) rfl⟩

/-- C6 counterexample: with a configured status filter (`["A"]` observed)
and ZERO selected statuses, the claim predicts that no row passes; the code
skips the filter instead, so the row with status `"A"` passes. -/
theorem claim_C6_counterexample :
    App2.statusFilter ["A"] [] [statusRowA] = [statusRowA] ∧
    statusRowA ∈ App2.statusFilter ["A"] [] [statusRowA] :=
  ⟨rfl, show statusRowA ∈ [statusRowA] from List.mem_singleton.mpr rfl⟩

/-- C6 (amended): when a status filter is configured and the selection is
non-empty, a row passes iff its status is one of the selected strings; with
a configured filter and an EMPTY selection the filter is skipped and every
row passes; with no status filter configured every row passes. -/
theorem claim_C6_statusFilter :
    (∀ (opts sel : List String) (rows : List App2.Row) (r : App2.Row),
      opts ≠ [] → sel ≠ [] →
        (r ∈ App2.statusFilter opts sel rows ↔
          (r ∈ rows ∧ ∃ s, r.status = some s ∧ s ∈ sel))) ∧
    (∀ (opts : List String) (rows : List App2.Row),
      App2.statusFilter opts [] rows = rows) ∧
    (∀ (sel : List String) (rows : List App2.Row),
      App2.statusFilter [] sel rows = rows) := by
  refine ⟨?_, ?_, ?_⟩
  · intro opts sel rows r hopts hsel
    rw [App2.statusFilter, if_neg (by simpa using hopts), if_neg (by simpa using hsel),
      List.mem_filter]
    rcases hst : r.status with _ | s
    · simp [hst]
    · simp [hst]
  · intro opts rows
    rw [App2.statusFilter]
    split
    · rfl
    · simp
  · intro sel rows
    simp [App2.statusFilter]

/-- C6 witness for the amended claim: configured options `["A"]`, selection
`["A"]`, and the sample row with status `"A"`. -/
theorem claim_C6_witness :
    (["A"] : List String) ≠ [] ∧
    (statusRowA ∈ App2.statusFilter ["A"] ["A"] [statusRowA] ↔
      (statusRowA ∈ [statusRowA] ∧ ∃ s, statusRowA.status = some s ∧ s ∈ ["A"])) :=
  ⟨by simp, claim_C6_statusFilter.1 ["A"] ["A"] [statusRowA] statusRowA (by simp) (by simp)⟩

/-- C8: for every finite page sequence whose pages all return a live cursor
except the last (empty/absent), the fetch loop terminates normally after
exactly one request per page and yields the concatenation of the pages'
items, in page order then in-page order. -/
theorem claim_C8_pagination :
    ∀ (α : Type) (pages : List (Fetch.Page α)) (h : pages ≠ []),
      (∀ p ∈ pages.dropLast, Fetch.cursorDone p.cursor = false) →
      Fetch.cursorDone (pages.getLast h).cursor = true →
      Fetch.fetchLoop pages = ((pages.map Fetch.Page.items).flatten, pages.length, true) := by
  intro α pages
  induction pages with
  | nil => intro h; exact absurd rfl h
  | cons p ps ih =>
    intro h hlive hlast
    cases ps with
    | nil =>
      rw [List.getLast_singleton] at hlast
      simp [Fetch.fetchLoop, hlast]
    | cons q qs =>
      have hp : Fetch.cursorDone p.cursor = false := by
        apply hlive
        rw [List.dropLast_cons₂]
        exact List.mem_cons_self p _
      have hrec := ih (List.cons_ne_nil q qs)
        (fun x hx => hlive x (by rw [List.dropLast_cons₂]; exact List.mem_cons_of_mem p hx))
        (by rwa [List.getLast_cons (List.cons_ne_nil q qs)] at hlast)
      rw [Fetch.fetchLoop, if_neg (by simp [hp]), hrec]
      simp

/-- C8 witness: the three-page sample makes exactly 3 requests and yields
the items of all pages in order. -/
theorem claim_C8_witness :
    (pages3 ≠ [] ∧ Fetch.cursorDone ((pages3.getLast (by simp [pages3])).cursor) = true) ∧
    Fetch.fetchLoop pages3 = ((pages3.map Fetch.Page.items).flatten, pages3.length, true) ∧
    Fetch.fetchLoop pages3 = ([1, 2, 3, 4, 5], 3, true) :=
  ⟨⟨by simp [pages3], rfl⟩,
    claim_C8_pagination Nat pages3 (by simp [pages3]) (by decide) rfl, rfl⟩

/-- C1: when the structured location value is a mapping with both `lat` and
`lng` keys, both variants return the structured values (the first variant
as their float conversions, the second verbatim) together with the address
entry when present, and the display text is never consulted — the text
argument is universally quantified, so a differing parseable "lat,lng" text
changes nothing. -/
theorem claim_C1_structuredWins :
    (∀ (kvs : List (String × PyVal)) (t : Option String) (jla jln : PyVal) (la ln : Q),
      pyLookup kvs "lat" = some jla → pyLookup kvs "lng" = some jln →
      pyFloat jla = some la → pyFloat jln = some ln →
      App1.parse_location (some (PyVal.dict kvs)) t =
        (some la, some ln, (pyLookup kvs "address").getD (PyVal.str ""))) ∧
    (∀ (kvs : List (String × PyVal)) (t : Option String) (vla vln : PyVal),
      pyLookup kvs "lat" = some vla → pyLookup kvs "lng" = some vln →
      App2.parse_location (PyVal.dict kvs) t =
        (vla, vln, (pyLookup kvs "address").getD PyVal.pnone)) := by
  constructor
  · intro kvs t jla jln la ln h1 h2 h3 h4
    simp [App1.parse_location, h1, h2, h3, h4]
  · intro kvs t vla vln h1 h2
    simp [App2.parse_location, h1, h2]

/-- C1 witness: `{"lat":40.0,"lng":-73.0,"address":"HQ"}` with the
differing parseable text `"1.0,2.0"` yields the structured coordinates in
both variants. -/
theorem claim_C1_witness :
    App1.parse_location (some (PyVal.dict kvsStructured)) (some "1.0,2.0") =
      (some (40 : Q), some (-73 : Q), PyVal.str "HQ") ∧
    App2.parse_location (PyVal.dict kvsStructured) (some "1.0,2.0") =
      (PyVal.num 40, PyVal.num (-73), PyVal.str "HQ") :=
  ⟨(claim_C1_structuredWins.1 kvsStructured (some "1.0,2.0")
      (PyVal.num 40) (PyVal.num (-73)) 40 (-73) rfl rfl rfl rfl).trans rfl,
    (claim_C1_structuredWins.2 kvsStructured (some "1.0,2.0")
      (PyVal.num 40) (PyVal.num (-73)) rfl rfl).trans rfl⟩

/-- C10: in the first variant, a structured mapping with `lat` and `lng`
keys whose values do not convert to float does not abort extraction and is
not "no coordinates" outright: the conversion error is swallowed and the
result is exactly that of running the display-text fallback alone. -/
theorem claim_C10_badStructuredFallsThrough :
    ∀ (kvs : List (String × PyVal)) (t : Option String) (vla vln : PyVal),
      pyLookup kvs "lat" = some vla → pyLookup kvs "lng" = some vln →
      (pyFloat vla = none ∨ pyFloat vln = none) →
      App1.parse_location (some (PyVal.dict kvs)) t = App1.parse_location none t := by
  intro kvs t vla vln h1 h2 h3
  rcases h3 with h3 | h3
  · rcases hb : pyFloat vln with _ | w <;>
      simp [App1.parse_location, h1, h2, h3, hb]
  · rcases ha : pyFloat vla with _ | w <;>
      simp [App1.parse_location, h1, h2, h3, ha]

/-- C10 witness: `{"lat":"abc","lng":1.0}` has an unconvertible latitude;
with text `"34.05, -118.25"` the first variant still extracts those text
coordinates. -/
theorem claim_C10_witness :
    pyFloat (PyVal.str "abc") = none ∧
    App1.parse_location (some (PyVal.dict kvsBadLat)) (some "34.05, -118.25") =
      (some (34.05 : Q), some (-118.25 : Q), PyVal.str "") :=
  ⟨rfl,
    (claim_C10_badStructuredFallsThrough kvsBadLat (some "34.05, -118.25")
      (PyVal.str "abc") (PyVal.num 1) rfl rfl (Or.inl rfl)).trans rfl⟩

/-- Splitting at the first comma of `a ++ "," ++ b` with `a` comma-free
yields exactly `(a, b)`. -/
theorem breakAtComma_append (a b : List Char) (h : a.contains ',' = false) :
    breakAtComma (a ++ ',' :: b) = some (a, b) := by
  induction a with
  | nil => simp [breakAtComma]
  | cons c cs ih =>
    simp only [List.contains_cons, Bool.or_eq_false_iff] at h
    rw [List.cons_append, breakAtComma, if_neg (Ne.symm (by simpa using h.1)),
      ih (by simpa using h.2)]
    rfl

/-- C2 counterexample: the claim says text with more than one comma, such as
`"1.0,2.0,3.0"`, yields no coordinates; the second variant instead splits at
every comma, keeps the first two parts and returns `(1.0, 2.0)`. -/
theorem claim_C2_counterexample :
    App2.parse_location PyVal.pnone (some "1.0,2.0,3.0") =
      (PyVal.num (1.0 : Q), PyVal.num (2.0 : Q), PyVal.pnone) ∧
    App2.parse_location PyVal.pnone (some "1.0,2.0,3.0") ≠
      (PyVal.pnone, PyVal.pnone, PyVal.pnone) :=
  ⟨rfl, fun h => by
    have h1 : PyVal.num (1.0 : Q) = PyVal.pnone := congrArg Prod.fst h
    exact PyVal.noConfusion h1⟩

/-- C2 (amended): with no structured value and a comma in the text, the
FIRST variant splits at the first comma into exactly two parts, trims and
float-parses both, and any parse failure yields no coordinates — so
`"1.0,2.0,3.0"` yields none there; the SECOND variant splits at every comma
and keeps the first two parts, so `"1.0,2.0,3.0"` yields `(1.0, 2.0)`. -/
theorem claim_C2_firstCommaSplit :
    (∀ (a b : String), a.data.contains ',' = false →
      App1.parse_location none (some (a ++ "," ++ b)) =
        (match parseFloatCore (stripChars a.data), parseFloatCore (stripChars b.data) with
         | some la, some ln => (some la, some ln, PyVal.str "")
         | _, _ => ((none : Option Q), none, PyVal.str ""))) ∧
    App1.parse_location none (some "1.0,2.0,3.0") = (none, none, PyVal.str "") ∧
    App2.parse_location PyVal.pnone (some "1.0,2.0,3.0") =
      (PyVal.num (1.0 : Q), PyVal.num (2.0 : Q), PyVal.pnone) := by
  refine ⟨?_, rfl, rfl⟩
  intro a b h
  have hcomma : ("," : String).data = [','] := rfl
  have hdata : (a ++ "," ++ b).data = a.data ++ ',' :: b.data := by
    simp [String.data_append, hcomma]
  have hne : (a ++ "," ++ b) ≠ "" := by
    intro he
    have h2 : (a ++ "," ++ b).data = ([] : List Char) := by rw [he]
    rw [hdata] at h2
    simp at h2
  have hcontains : (a ++ "," ++ b).data.contains ',' = true := by
    rw [hdata]; simp
  show App1.textParse (some (a ++ "," ++ b)) = _
  rw [App1.textParse, if_pos ⟨hne, hcontains⟩, hdata, breakAtComma_append a.data b.data h]

/-- C2 witness: `"34.05" ++ "," ++ " -118.25"` — comma-free first part — is
split at the comma and parses to `(34.05, -118.25)` in the first variant. -/
theorem claim_C2_witness :
    ("34.05" : String).data.contains ',' = false ∧
    App1.parse_location none (some ("34.05" ++ "," ++ " -118.25")) =
      (some (34.05 : Q), some (-118.25 : Q), PyVal.str "") ∧
    App1.parse_location none (some "34.05, -118.25") =
      (some (34.05 : Q), some (-118.25 : Q), PyVal.str "") :=
  ⟨by decide,
    (claim_C2_firstCommaSplit.1 "34.05" " -118.25" (by decide)).trans rfl,
    rfl⟩

/-- C3 counterexample: the claim's rule (strip `$` and `,` and whitespace,
then float-parse the remainder) gives `-500.0` on `"-500"`, but the second
variant's extraction gives `500.0` — the two cited extraction routines do
not implement one common rule. -/
theorem claim_C3_counterexample :
    App2.orderValueNum (some "-500") = some (500 : Q) ∧
    SpecModel.specMonetary (some "-500") = some (-500 : Q) ∧
    App2.orderValueNum (some "-500") ≠ SpecModel.specMonetary (some "-500") :=
  ⟨by decide, by decide, by decide⟩

/-- C3 (amended): the FIRST variant's monetary extraction is exactly the
claimed rule — strip `$` and `,` and surrounding whitespace, absent on an
empty remainder, else a float parse whose failure is absent, never raising;
the SECOND variant extracts the first numeric substring instead, but agrees
on the claim's concrete examples: `"$1,234.50"` gives 1234.50 and `""` and
`"—"` give absent in both variants. -/
theorem claim_C3_monetary :
    (∀ t, App1.orderValue t = SpecModel.specMonetary t) ∧
    App1.orderValue (some "$1,234.50") = some (1234.50 : Q) ∧
    App1.orderValue (some "") = none ∧
    App1.orderValue (some "—") = none ∧
    App2.orderValueNum (some "$1,234.50") = some (1234.50 : Q) ∧
    App2.orderValueNum (some "") = none ∧
    App2.orderValueNum (some "—") = none := by
  refine ⟨?_, by decide, by decide, by decide, by decide, by decide, by decide⟩
  intro t
  simp only [App1.orderValue, SpecModel.specMonetary, List.filter_filter, Bool.not_or,
    Bool.and_comm]

/-- `nsmallest(1, ·)` over keys with positive denominators returns the first
element attaining the minimal key: the element is in the list, everything
strictly before it has a strictly larger key, and nothing beats it. -/
theorem nsmallest1_spec {α : Type} (f : α → Q) (hwf : ∀ x, 0 < (f x).den) :
    ∀ rows : List α, rows ≠ [] →
      ∃ r l1 l2, nsmallest1 f rows = some r ∧ rows = l1 ++ r :: l2 ∧
        (∀ x ∈ l1, f r < f x) ∧ (∀ x ∈ rows, f r ≤ f x) := by
  intro rows
  induction rows with
  | nil => intro h; exact absurd rfl h
  | cons r rs ih =>
    intro _
    rcases rs with _ | ⟨q, qs⟩
    · refine ⟨r, [], [], rfl, rfl, by simp, ?_⟩
      intro x hx
      rw [List.mem_singleton] at hx
      subst hx
      exact Q.qle_refl _
    · obtain ⟨b, l1, l2, hb, hdecomp, hlt, hle⟩ := ih (List.cons_ne_nil q qs)
      by_cases hcmp : f b < f r
      · refine ⟨b, r :: l1, l2, ?_, ?_, ?_, ?_⟩
        · rw [show nsmallest1 f (r :: q :: qs) =
              (match nsmallest1 f (q :: qs) with
               | none => some r
               | some b2 => if f b2 < f r then some b2 else some r) from rfl,
            hb]
          exact if_pos hcmp
        · rw [List.cons_append, ← hdecomp]
        · intro x hx
          rcases List.mem_cons.mp hx with he | hm
          · subst he; exact hcmp
          · exact hlt x hm
        · intro x hx
          rcases List.mem_cons.mp hx with he | hm
          · subst he; exact Q.qle_of_lt hcmp
          · exact hle x hm
      · have hrb : f r ≤ f b := Q.qle_of_not_lt hcmp
        refine ⟨r, [], q :: qs, ?_, rfl, by simp, ?_⟩
        · rw [show nsmallest1 f (r :: q :: qs) =
              (match nsmallest1 f (q :: qs) with
               | none => some r
               | some b2 => if f b2 < f r then some b2 else some r) from rfl,
            hb]
          exact if_neg hcmp
        · intro x hx
          rcases List.mem_cons.mp hx with he | hm
          · subst he; exact Q.qle_refl _
          · exact Q.qle_trans (hwf r) (hwf b) (hwf x) hrb (hle x hm)

/-- C7: on a non-empty filtered table, the selection lookup returns exactly
the first row (in table order) minimising the L1 distance on 5-decimal
rounded coordinates from the rounded click point: the returned row is in
the table, every earlier row is strictly farther, and no row is closer. -/
theorem claim_C7_nearestRow :
    ∀ (clat clng : Q) (rows : List App1.Row), rows ≠ [] →
      ∃ r l1 l2,
        App1.selectedRow clat clng rows = some r ∧
        rows = l1 ++ r :: l2 ∧
        (∀ x ∈ l1,
          App1.rowDist (round5 clat) (round5 clng) r <
            App1.rowDist (round5 clat) (round5 clng) x) ∧
        (∀ x ∈ rows,
          App1.rowDist (round5 clat) (round5 clng) r ≤
            App1.rowDist (round5 clat) (round5 clng) x) := by
  intro clat clng rows h
  exact nsmallest1_spec (App1.rowDist (round5 clat) (round5 clng))
    (fun x => by
      show (0 : Int) < 100000 * 100000 * (100000 * 100000)
      decide)
    rows h

/-- C7 witness: two rows at the identical rounded coordinate
`(40.12345, -73.0)`; a click at that exact point selects the FIRST of them
in table order. -/
theorem claim_C7_witness :
    App1.selectedRow 40.12345 (-73) [tieRowA, tieRowB] = some tieRowA ∧
    ([tieRowA, tieRowB] : List App1.Row) ≠ [] ∧
    (∃ r l1 l2,
      App1.selectedRow 40.12345 (-73) [tieRowA, tieRowB] = some r ∧
      [tieRowA, tieRowB] = l1 ++ r :: l2 ∧
      (∀ x ∈ l1,
        App1.rowDist (round5 40.12345) (round5 (-73)) r <
          App1.rowDist (round5 40.12345) (round5 (-73)) x) ∧
      (∀ x ∈ [tieRowA, tieRowB],
        App1.rowDist (round5 40.12345) (round5 (-73)) r ≤
          App1.rowDist (round5 40.12345) (round5 (-73)) x)) :=
  ⟨rfl, by simp,
    claim_C7_nearestRow 40.12345 (-73) [tieRowA, tieRowB] (by simp)⟩

/-- Powers of ten are positive. -/
theorem pow10_pos : ∀ k, 0 < pow10 k := by
  intro k
  induction k with
  | zero => norm_num [pow10]
  | succ n ih => rw [pow10]; omega

/-- Applying an exponent keeps a nonnegative numerator and positive
denominator. -/
theorem applyExp_nonneg {m : Q} {l : List Char} {v : Q}
    (hnum : 0 ≤ m.num) (hden : 0 < m.den) (h : applyExp m l = some v) :
    0 ≤ v.num ∧ 0 < v.den := by
  simp only [applyExp] at h
  split at h
  · cases h
  · split at h
    · cases h
      exact ⟨hnum, mul_pos hden (pow10_pos _)⟩
    · cases h
      exact ⟨mul_nonneg hnum (pow10_pos _).le, hden⟩

/-- The unsigned float magnitude has a nonnegative numerator and a positive
denominator. -/
theorem parseFloatMag_nonneg {s : List Char} {v : Q}
    (h : parseFloatMag s = some v) : 0 ≤ v.num ∧ 0 < v.den := by
  simp only [parseFloatMag] at h
  split at h
  · cases h
  · have hnum : (0 : Int) ≤
        (digitsToNat (s.takeWhile Char.isDigit) : Int) *
            pow10 (match s.dropWhile Char.isDigit with
                   | '.' :: r => r.takeWhile Char.isDigit
                   | _ => []).length +
          (digitsToNat (match s.dropWhile Char.isDigit with
                        | '.' :: r => r.takeWhile Char.isDigit
                        | _ => []) : Int) :=
      add_nonneg (mul_nonneg (Int.natCast_nonneg _) (pow10_pos _).le) (Int.natCast_nonneg _)
    split at h
    · cases h
      exact ⟨hnum, pow10_pos _⟩
    · exact applyExp_nonneg hnum (pow10_pos _) h
    · exact applyExp_nonneg hnum (pow10_pos _) h
    · cases h

/-- The sign prefix is `1` whenever the input does not start with `'-'`. -/
theorem floatSign_fst_one {s : List Char} (h : s.head? ≠ some '-') :
    (floatSign s).1 = 1 := by
  unfold floatSign
  split
  · exact absurd rfl h
  · rfl
  · rfl

/-- A successful float parse of a string not starting with `'-'` has a
nonnegative numerator and a positive denominator. -/
theorem parseFloatCore_nonneg {s : List Char} {v : Q}
    (hh : s.head? ≠ some '-') (h : parseFloatCore s = some v) :
    0 ≤ v.num ∧ 0 < v.den := by
  simp only [parseFloatCore] at h
  rcases Option.map_eq_some'.mp h with ⟨m, hm, heq⟩
  obtain ⟨h1, h2⟩ := parseFloatMag_nonneg hm
  subst heq
  refine ⟨?_, h2⟩
  rw [floatSign_fst_one hh, one_mul]
  exact h1

/-- The first run found by `firstRun` starts with a character satisfying the
predicate. -/
theorem firstRun_head {p : Char → Bool} :
    ∀ {l r : List Char}, firstRun p l = some r → ∃ c cs, r = c :: cs ∧ p c = true := by
  intro l
  induction l with
  | nil => intro r h; cases h
  | cons c cs ih =>
    intro r h
    rw [firstRun] at h
    split at h
    · cases h
      exact ⟨c, cs.takeWhile p, rfl, by assumption⟩
    · exact ih h

/-- C9: the second variant's numeric order value removes commas and parses
the first maximal run of digits and dots, so signs and surrounding text are
discarded: `"-500"` extracts as `500.0`, `"Total: 1200.50 USD"` as
`1200.50`, and every successfully extracted value is nonnegative (with a
well-formed positive denominator). -/
theorem claim_C9_firstNumericRun :
    App2.orderValueNum (some "-500") = some (500 : Q) ∧
    App2.orderValueNum (some "Total: 1200.50 USD") = some (1200.50 : Q) ∧
    (∀ (t : Option String) (v : Q),
      App2.orderValueNum t = some v → (0 : Q) ≤ v ∧ 0 < v.den) := by
  refine ⟨by decide, by decide, ?_⟩
  intro t v h
  rcases t with _ | s
  · cases h
  · rw [App2.orderValueNum] at h
    rcases hr : firstRun (fun c => c.isDigit || c == '.')
        (s.data.filter (fun c => !(c == ','))) with _ | run
    · rw [hr] at h; cases h
    · rw [hr] at h
      obtain ⟨c, cs, hrun, hc⟩ := firstRun_head hr
      have hh : run.head? ≠ some '-' := by
        rw [hrun]
        intro he
        have hce : c = '-' := by injection he
        subst hce
        simp at hc
      obtain ⟨h1, h2⟩ := parseFloatCore_nonneg hh h
      refine ⟨?_, h2⟩
      have h3 : (0 : Int) * v.den ≤ v.num * 1 := by simpa using h1
      exact h3

/-- C9 witness: the extraction of `"-500"` succeeds with value `500`, which
the nonnegativity part confirms is `≥ 0` with a positive denominator. -/
theorem claim_C9_witness :
    App2.orderValueNum (some "-500") = some (500 : Q) ∧
    ((0 : Q) ≤ (500 : Q) ∧ 0 < (500 : Q).den) :=
  ⟨by decide, claim_C9_firstNumericRun.2.2 (some "-500") 500 (by decide)⟩
